import Mathlib

/-!
Shallow embedding of `src/main.rs` (a Bevy 0.6-style app: player step motion on
key-release edges, mouse-look camera, a continuous-motion placeholder path).

Scalar `f32` arithmetic is modelled over `ℚ` (exact field arithmetic); the
transcendental pieces of the source (`sin`/`cos` inside `Quat::from_axis_angle`
and the `π/180` constant inside `f32::to_radians`) are threaded through an
explicit `Env` record of scalar functions/constants, so every definition stays
executable and theorems quantify over the actual numeric environment.
-/

namespace Aegir

/-- 3-component vector, modelling glam `Vec3` with rational scalars. -/
structure Vec3 where
  x : ℚ
  y : ℚ
  z : ℚ
deriving DecidableEq, Repr

def Vec3.zero : Vec3 := ⟨0, 0, 0⟩

def Vec3.add (v w : Vec3) : Vec3 := ⟨v.x + w.x, v.y + w.y, v.z + w.z⟩

instance : Add Vec3 := ⟨Vec3.add⟩

/-- `v * c` for a vector and scalar (glam `Vec3 * f32`). -/
def Vec3.scale (v : Vec3) (c : ℚ) : Vec3 := ⟨v.x * c, v.y * c, v.z * c⟩

def Vec3.dot (v w : Vec3) : ℚ := v.x * w.x + v.y * w.y + v.z * w.z

def Vec3.cross (v w : Vec3) : Vec3 :=
  ⟨v.y * w.z - v.z * w.y, v.z * w.x - v.x * w.z, v.x * w.y - v.y * w.x⟩

/-- glam `Vec3::X`. -/
def vX : Vec3 := ⟨1, 0, 0⟩

/-- glam `Vec3::Y`. -/
def vY : Vec3 := ⟨0, 1, 0⟩

/-- glam `Vec3::Z`. -/
def vZ : Vec3 := ⟨0, 0, 1⟩

/-- Quaternion, modelling glam `Quat` with rational scalars. -/
structure Quat where
  x : ℚ
  y : ℚ
  z : ℚ
  w : ℚ
deriving DecidableEq, Repr

/-- glam `Quat::IDENTITY = (0, 0, 0, 1)`, the `Transform` default rotation. -/
def qIdentity : Quat := ⟨0, 0, 0, 1⟩

/-- glam `Quat::mul_vec3` (scalar path):
`v * (w*w - b.dot b) + b * (v.dot b * 2) + b.cross v * (w * 2)` with `b = q.xyz`. -/
def Quat.mulVec3 (q : Quat) (v : Vec3) : Vec3 :=
  let b : Vec3 := ⟨q.x, q.y, q.z⟩
  v.scale (q.w * q.w - b.dot b) + (b.scale (v.dot b * 2) + (b.cross v).scale (q.w * 2))

/-- glam quaternion Hamilton product `q1 * q2`. -/
def Quat.mul (a b : Quat) : Quat :=
  ⟨a.w * b.x + a.x * b.w + a.y * b.z - a.z * b.y,
   a.w * b.y - a.x * b.z + a.y * b.w + a.z * b.x,
   a.w * b.z + a.x * b.y - a.y * b.x + a.z * b.w,
   a.w * b.w - a.x * b.x - a.y * b.y - a.z * b.z⟩

/-- Numeric environment: the transcendental scalar functions the source uses
(`f32::sin`, `f32::cos`) and the `π/180` constant of `f32::to_radians`,
abstracted so all definitions stay exact and executable. -/
structure Env where
  sin : ℚ → ℚ
  cos : ℚ → ℚ
  degRad : ℚ

/-- `f32::to_radians`: multiply by the degrees-to-radians constant. -/
def toRadians (env : Env) (x : ℚ) : ℚ := x * env.degRad

/-- glam `Quat::from_axis_angle(axis, angle) = (axis * sin(angle/2), cos(angle/2))`. -/
def Quat.fromAxisAngle (env : Env) (axis : Vec3) (angle : ℚ) : Quat :=
  ⟨axis.x * env.sin (angle / 2), axis.y * env.sin (angle / 2),
   axis.z * env.sin (angle / 2), env.cos (angle / 2)⟩

/-- Bevy `Transform` (translation, rotation, scale). -/
structure Transform where
  translation : Vec3
  rotation : Quat
  scale : Vec3
deriving DecidableEq, Repr

/-- `Transform::default()`: zero translation, identity rotation, unit scale. -/
def Transform.default : Transform := ⟨Vec3.zero, qIdentity, ⟨1, 1, 1⟩⟩

/-- The `Action` enum of `main.rs`. -/
inductive Action where
  | thrust
  | activate
  | weapon1
  | weapon2
  | forward
  | reverse
  | strafeLeft
  | strafeRight
deriving DecidableEq, Repr

/-- The slice of leafwing `ActionState` the registered systems read:
the per-frame just-released edge flag of each action. -/
structure ActionState where
  justReleased : Action → Bool

/-- Rust `bool as i32 as f32` cast used in `update_directional_input`. -/
def boolToQ (b : Bool) : ℚ := if b then 1 else 0

/-- The body of `update_directional_input` for one `(ActionState, Transform)`
query row: `translation += rotation.mul_vec3(Vec3::Z * (jr(Forward) - jr(Reverse)))`. -/
def updateDirectionalInputT (a : ActionState) (t : Transform) : Transform :=
  let forwardMovement :=
    vZ.scale (boolToQ (a.justReleased .forward) - boolToQ (a.justReleased .reverse))
  let rotation := t.rotation
  let rotatedForwardMovement := rotation.mulVec3 forwardMovement
  { t with translation := t.translation + rotatedForwardMovement }

/-- One `MouseMotion` event's `delta` (pixels). -/
structure MouseMotionEv where
  dx : ℚ
  dy : ℚ
deriving DecidableEq, Repr

/-- The `InputState` resource: the `ManualEventReader` cursor plus accumulated
pitch and yaw.  `Default` gives cursor 0 and zero angles. -/
structure InputState where
  cursor : ℕ
  pitch : ℚ
  yaw : ℚ
deriving DecidableEq, Repr

def InputState.default : InputState := ⟨0, 0, 0⟩

/-- Bevy `Window`: pixel dimensions plus the cursor flags set by
`cursor_grab_system`. -/
structure Window where
  width : ℚ
  height : ℚ
  cursorLocked : Bool
  cursorVisible : Bool
deriving DecidableEq, Repr

/-- Rust `f32::clamp(lo, hi)`: `lo` if below, `hi` if above, else unchanged. -/
def clampQ (x lo hi : ℚ) : ℚ := if x < lo then lo else if x > hi then hi else x

/-- The pitch/yaw update of one iteration of the event loop in `mouse_motion`:
`window_scale = height.min(width)`;
`pitch -= (0.01 * dy * window_scale).to_radians()`;
`yaw -= (0.01 * dx * window_scale).to_radians()`;
`pitch = pitch.clamp(-1.54, 1.54)`.  The reader cursor field is advanced by the
enclosing drain, not here. -/
def lookUpdate (env : Env) (win : Window) (st : InputState) (ev : MouseMotionEv) :
    InputState :=
  let windowScale := min win.height win.width
  let pitch1 := st.pitch - toRadians env (0.01 * ev.dy * windowScale)
  let yaw1 := st.yaw - toRadians env (0.01 * ev.dx * windowScale)
  let pitch2 := clampQ pitch1 (-1.54) 1.54
  { st with pitch := pitch2, yaw := yaw1 }

/-- One full iteration of the event loop in `mouse_motion`: update pitch/yaw,
then overwrite the camera rotation with
`Quat::from_axis_angle(Y, yaw) * Quat::from_axis_angle(X, pitch)`. -/
def mouseStep (env : Env) (win : Window) (p : InputState × Transform)
    (ev : MouseMotionEv) : InputState × Transform :=
  let st := lookUpdate env win p.1 ev
  (st, { p.2 with rotation :=
          Quat.mul (Quat.fromAxisAngle env vY st.yaw)
                   (Quat.fromAxisAngle env vX st.pitch) })

/-- Folding `lookUpdate` over a list of events (the pitch/yaw part of a drain). -/
def lookFold (env : Env) (win : Window) (st : InputState)
    (evs : List MouseMotionEv) : InputState :=
  evs.foldl (lookUpdate env win) st

/-- The entity/resource state the registered systems touch.  The app spawns one
`Player` entity (no `Move`, no `Camera` marker: the `.insert(Move)` after
`spawn_player` is commented out), one camera entity carrying both `Move` and
`Camera` (`Option`, so a world without a camera is representable), one point
light and one plane mesh (no markers), the `Direction` resource and the
`InputState` resource, plus the running `Events<MouseMotion>` buffer drained by
the `ManualEventReader` cursor. -/
structure World where
  playerTransform : Transform
  camera : Option Transform
  light : Transform
  plane : Transform
  direction : Vec3
  inputState : InputState
  events : List MouseMotionEv
deriving DecidableEq

/-- System `update_directional_input`: for each entity with `Player` (and its
`ActionState`), apply the release-edge step to its transform.  The app has one
such entity. -/
def updateDirectionalInput (a : ActionState) (w : World) : World :=
  { w with playerTransform := updateDirectionalInputT a w.playerTransform }

/-- System `move_player`: for each entity with `Move` (only the camera),
`translation += direction * delta_seconds`. -/
def movePlayer (dt : ℚ) (w : World) : World :=
  let f := fun (t : Transform) =>
    { t with translation := t.translation + w.direction.scale dt }
  { w with camera := Option.map f w.camera }

/-- System `mouse_motion` given the (already unwrapped) primary window: for each
entity with `Camera`, drain the not-yet-read mouse-motion events through
`mouseStep`; the `ManualEventReader` ends up past every event in the buffer.
With no camera entity the query loop body never runs, so nothing is mutated
(the events are not consumed either). -/
def mouseMotion (env : Env) (win : Window) (w : World) : World :=
  match w.camera with
  | none => w
  | some t =>
    let pending := w.events.drop w.inputState.cursor
    let p := pending.foldl (mouseStep env win) (w.inputState, t)
    { w with camera := some p.2,
             inputState := { p.1 with cursor := w.events.length } }

/-- System `mouse_motion` as written: it begins with
`windows.get_primary().unwrap()`, which panics when no primary window exists.
`Except.error` models the panic. -/
def mouseMotionRun (env : Env) (win? : Option Window) (w : World) :
    Except String World :=
  match win? with
  | none => Except.error "no primary window"
  | some win => Except.ok (mouseMotion env win w)

/-- Startup system `cursor_grab_system`: `windows.get_primary_mut().unwrap()`
(panic when absent, modelled as `Except.error`), then lock and hide the cursor. -/
def cursorGrabSystem (win? : Option Window) : Except String Window :=
  match win? with
  | none => Except.error "no primary window"
  | some win => Except.ok { win with cursorLocked := true, cursorVisible := false }

/-- Per-frame external input: the player's `ActionState` (produced by the input
manager plugin), freshly arrived mouse-motion events, the frame's elapsed
seconds, and the primary window. -/
structure FrameInput where
  actions : ActionState
  newEvents : List MouseMotionEv
  dt : ℚ
  window : Window

/-- One frame: append the frame's new events to the buffer, then run the three
registered systems. -/
def frameStep (env : Env) (fi : FrameInput) (w : World) : World :=
  mouseMotion env fi.window
    (movePlayer fi.dt
      (updateDirectionalInput fi.actions
        { w with events := w.events ++ fi.newEvents }))

/-- A run: fold `frameStep` over a list of frame inputs. -/
def run (env : Env) (fis : List FrameInput) (w : World) : World :=
  fis.foldl (fun w fi => frameStep env fi w) w

/-- The world after the startup systems: `spawn_player` gives the player the
default transform with `scale = (1, 1, 0)` (so default, i.e. identity,
rotation); `setup_camera` spawns the camera at `(0, 1, 5)` with the
`looking_at(ZERO, Y)` rotation (left abstract as `camRot`: no claim depends on
its value); `setup_light` spawns the light at `splat 3` and the plane at the
default transform; `Direction` and `InputState` are `init_resource` defaults. -/
def initWorld (camRot : Quat) : World :=
  { playerTransform := { Transform.default with scale := ⟨1, 1, 0⟩ }
    camera := some ⟨⟨0, 1, 5⟩, camRot, ⟨1, 1, 1⟩⟩
    light := { Transform.default with translation := ⟨3, 3, 3⟩ }
    plane := Transform.default
    direction := Vec3.zero
    inputState := InputState.default
    events := [] }

/-! ## Helper lemmas -/

lemma Vec3.add_def (v w : Vec3) : v + w = Vec3.add v w := rfl

lemma Vec3.add_zero (v : Vec3) : v + Vec3.zero = v := by
  cases v
  simp [Vec3.add_def, Vec3.add, Vec3.zero]

lemma Quat.mulVec3_zero (q : Quat) : q.mulVec3 Vec3.zero = Vec3.zero := by
  cases q
  simp [Quat.mulVec3, Vec3.zero, Vec3.scale, Vec3.dot, Vec3.cross, Vec3.add_def,
    Vec3.add]

lemma Quat.mulVec3_identity (v : Vec3) : qIdentity.mulVec3 v = v := by
  cases v with
  | mk x y z =>
    simp [qIdentity, Quat.mulVec3, Vec3.scale, Vec3.dot, Vec3.cross, Vec3.add_def,
      Vec3.add, Vec3.mk.injEq]

lemma clampQ_mem (x lo hi : ℚ) (h : lo ≤ hi) :
    lo ≤ clampQ x lo hi ∧ clampQ x lo hi ≤ hi := by
  unfold clampQ
  split_ifs with h1 h2
  · exact ⟨le_refl lo, h⟩
  · exact ⟨h, le_refl hi⟩
  · exact ⟨le_of_not_lt h1, le_of_not_lt h2⟩

lemma clampQ_of_le_lo (x lo hi : ℚ) (hx : x ≤ lo) (h : lo ≤ hi) :
    clampQ x lo hi = lo := by
  unfold clampQ
  split_ifs with h1 h2
  · rfl
  · linarith
  · linarith [le_of_not_lt h1]

lemma clampQ_of_mem (x lo hi : ℚ) (hlo : lo ≤ x) (hhi : x ≤ hi) :
    clampQ x lo hi = x := by
  unfold clampQ
  split_ifs with h1 h2
  · linarith
  · linarith
  · rfl

lemma lookUpdate_pitch_mem (env : Env) (win : Window) (st : InputState)
    (ev : MouseMotionEv) :
    -1.54 ≤ (lookUpdate env win st ev).pitch ∧
      (lookUpdate env win st ev).pitch ≤ 1.54 := by
  have h : (-1.54 : ℚ) ≤ 1.54 := by norm_num
  simpa [lookUpdate] using clampQ_mem _ (-1.54) 1.54 h

lemma lookFold_pitch_mem (env : Env) (win : Window) (evs : List MouseMotionEv)
    (st : InputState) (hlo : -1.54 ≤ st.pitch) (hhi : st.pitch ≤ 1.54) :
    -1.54 ≤ (lookFold env win st evs).pitch ∧
      (lookFold env win st evs).pitch ≤ 1.54 := by
  induction evs generalizing st with
  | nil => exact ⟨hlo, hhi⟩
  | cons ev rest ih =>
    have hmem := lookUpdate_pitch_mem env win st ev
    exact ih (lookUpdate env win st ev) hmem.1 hmem.2

/-- C1's spec-side scalar: `+1` if Forward just-released, `-1` if Reverse
just-released, else `0` (also `0` when both edges fire in the same frame). -/
def specForwardScalar (a : ActionState) : ℚ :=
  if a.justReleased .forward && a.justReleased .reverse then 0
  else if a.justReleased .forward then 1
  else if a.justReleased .reverse then -1
  else 0

lemma code_scalar_eq_spec (a : ActionState) :
    boolToQ (a.justReleased .forward) - boolToQ (a.justReleased .reverse)
      = specForwardScalar a := by
  cases hF : a.justReleased .forward <;> cases hR : a.justReleased .reverse <;>
    simp [specForwardScalar, boolToQ, hF, hR]

lemma updateDirectionalInput_translation (a : ActionState) (w : World) :
    (updateDirectionalInput a w).playerTransform.translation
      = w.playerTransform.translation
        + w.playerTransform.rotation.mulVec3 (vZ.scale (specForwardScalar a)) := by
  simp [updateDirectionalInput, updateDirectionalInputT, code_scalar_eq_spec]

/-! ## Claim theorems -/

/-- C1: each frame, `update_directional_input` adds to the Player transform's
translation exactly the rotation of `Z * s` by its current rotation, where
`s = +1` on a Forward just-release, `-1` on a Reverse just-release, `0`
otherwise (also when both fire); the rotation is untouched, no elapsed-time
factor appears, and with no just-released edge the system leaves the world
unchanged. -/
theorem update_directional_input_adds_rotated_step (a : ActionState) (w : World) :
    (updateDirectionalInput a w).playerTransform.translation
        = w.playerTransform.translation
          + w.playerTransform.rotation.mulVec3 (vZ.scale (specForwardScalar a))
      ∧ (updateDirectionalInput a w).playerTransform.rotation
          = w.playerTransform.rotation
      ∧ (a.justReleased .forward = false → a.justReleased .reverse = false →
          updateDirectionalInput a w = w) := by
  refine ⟨?_, ?_, ?_⟩
  · exact updateDirectionalInput_translation a w
  · simp [updateDirectionalInput, updateDirectionalInputT]
  · intro hF hR
    have hz : vZ.scale (boolToQ (a.justReleased .forward)
        - boolToQ (a.justReleased .reverse)) = Vec3.zero := by
      simp [hF, hR, boolToQ, vZ, Vec3.scale, Vec3.zero]
    have ht : updateDirectionalInputT a w.playerTransform = w.playerTransform := by
      simp only [updateDirectionalInputT]
      rw [hz, Quat.mulVec3_zero, Vec3.add_zero]
    unfold updateDirectionalInput
    rw [ht]

/-- C1 witness: on a frame with no just-released Forward/Reverse edge the
system is the identity on a concrete world. -/
theorem update_directional_input_adds_rotated_step_witness :
    updateDirectionalInput ⟨fun _ => false⟩ (initWorld qIdentity)
      = initWorld qIdentity :=
  (update_directional_input_adds_rotated_step ⟨fun _ => false⟩
    (initWorld qIdentity)).2.2 rfl rfl

/-- C2: for every event sequence processed by the Look Controller starting from
the initial zero state, the stored pitch stays in `[-1.54, 1.54]`; and with
window min-dimension 720 and any positive-enough degrees-to-radians constant, a
single `(dx = 0, dy = 100000)` event from any in-range state drives pitch to
exactly `-1.54` (so repeating it saturates there and never goes lower). -/
theorem pitch_always_clamped :
    (∀ (env : Env) (win : Window) (evs : List MouseMotionEv),
        -1.54 ≤ (lookFold env win InputState.default evs).pitch
          ∧ (lookFold env win InputState.default evs).pitch ≤ 1.54)
      ∧ (∀ (env : Env) (win : Window) (st : InputState),
          min win.height win.width = 720 → (308/100 : ℚ) ≤ 720000 * env.degRad →
          st.pitch ≤ 1.54 →
          (lookUpdate env win st ⟨0, 100000⟩).pitch = -1.54) := by
  constructor
  · intro env win evs
    exact lookFold_pitch_mem env win evs InputState.default
      (by norm_num [InputState.default]) (by norm_num [InputState.default])
  · intro env win st hmin hdeg hpitch
    have harg : st.pitch - toRadians env (0.01 * (100000 : ℚ)
        * min win.height win.width) ≤ -1.54 := by
      rw [hmin]
      unfold toRadians
      nlinarith
    simp only [lookUpdate]
    exact clampQ_of_le_lo _ _ _ harg (by norm_num)

/-- C2 witness: saturation at `-1.54` on a concrete environment, window and
state. -/
theorem pitch_always_clamped_witness :
    (-1.54 ≤ (lookFold ⟨fun _ => 0, fun _ => 1, 1⟩ ⟨720, 720, false, false⟩
          InputState.default [⟨0, 100000⟩]).pitch)
      ∧ (lookUpdate ⟨fun _ => 0, fun _ => 1, 1⟩ ⟨720, 720, false, false⟩
          InputState.default ⟨0, 100000⟩).pitch = -1.54 :=
  ⟨(pitch_always_clamped.1 ⟨fun _ => 0, fun _ => 1, 1⟩ ⟨720, 720, false, false⟩
      [⟨0, 100000⟩]).1,
   pitch_always_clamped.2 ⟨fun _ => 0, fun _ => 1, 1⟩ ⟨720, 720, false, false⟩
      InputState.default (by norm_num) (by norm_num)
      (by norm_num [InputState.default])⟩

/-- C3: each mouse delta decreases yaw by
`0.01 * dx * min(width, height)` degrees converted to radians and decreases
pitch by `0.01 * dy * min(width, height)` degrees converted to radians before
clamping; with `dy = 0` and in-range pitch, pitch is unchanged. -/
theorem mouse_delta_updates_yaw_pitch (env : Env) (win : Window)
    (st : InputState) (ev : MouseMotionEv) :
    (lookUpdate env win st ev).yaw
        = st.yaw - 0.01 * ev.dx * min win.width win.height * env.degRad
      ∧ (lookUpdate env win st ev).pitch
          = clampQ (st.pitch - 0.01 * ev.dy * min win.width win.height * env.degRad)
              (-1.54) 1.54
      ∧ (ev.dy = 0 → -1.54 ≤ st.pitch → st.pitch ≤ 1.54 →
          (lookUpdate env win st ev).pitch = st.pitch) := by
  refine ⟨?_, ?_, ?_⟩
  · simp only [lookUpdate, toRadians, min_comm win.width win.height]
  · simp only [lookUpdate, toRadians, min_comm win.width win.height]
  · intro hdy hlo hhi
    have h0 : st.pitch - toRadians env (0.01 * ev.dy * min win.height win.width)
        = st.pitch := by
      rw [hdy]
      unfold toRadians
      ring
    simp only [lookUpdate, h0]
    exact clampQ_of_mem _ _ _ hlo hhi

/-- C3 witness: scenario B at a concrete state — `(dx, dy) = (100, 0)` with a
720-by-1280 window decreases yaw by `0.01 * 100 * 720` times the
degrees-to-radians constant and leaves pitch unchanged. -/
theorem mouse_delta_updates_yaw_pitch_witness :
    (lookUpdate ⟨fun _ => 0, fun _ => 1, 1⟩ ⟨1280, 720, false, false⟩
        InputState.default ⟨100, 0⟩).yaw
        = InputState.default.yaw - 0.01 * 100 * min 1280 720 * 1
      ∧ (lookUpdate ⟨fun _ => 0, fun _ => 1, 1⟩ ⟨1280, 720, false, false⟩
          InputState.default ⟨100, 0⟩).pitch = InputState.default.pitch :=
  ⟨(mouse_delta_updates_yaw_pitch ⟨fun _ => 0, fun _ => 1, 1⟩
      ⟨1280, 720, false, false⟩ InputState.default ⟨100, 0⟩).1,
   (mouse_delta_updates_yaw_pitch ⟨fun _ => 0, fun _ => 1, 1⟩
      ⟨1280, 720, false, false⟩ InputState.default ⟨100, 0⟩).2.2 rfl
      (by norm_num [InputState.default]) (by norm_num [InputState.default])⟩

/-! ## Preservation lemmas for the registered systems -/

lemma Vec3.zero_scale (c : ℚ) : Vec3.zero.scale c = Vec3.zero := by
  simp [Vec3.zero, Vec3.scale]

lemma mouseStep_rotation (env : Env) (win : Window) (p : InputState × Transform)
    (ev : MouseMotionEv) :
    (mouseStep env win p ev).2.rotation
      = Quat.mul (Quat.fromAxisAngle env vY (mouseStep env win p ev).1.yaw)
                 (Quat.fromAxisAngle env vX (mouseStep env win p ev).1.pitch) := rfl

lemma updateDirectionalInput_playerRotation (a : ActionState) (w : World) :
    (updateDirectionalInput a w).playerTransform.rotation
      = w.playerTransform.rotation := rfl

lemma updateDirectionalInput_light (a : ActionState) (w : World) :
    (updateDirectionalInput a w).light = w.light := rfl

lemma updateDirectionalInput_plane (a : ActionState) (w : World) :
    (updateDirectionalInput a w).plane = w.plane := rfl

lemma updateDirectionalInput_direction (a : ActionState) (w : World) :
    (updateDirectionalInput a w).direction = w.direction := rfl

lemma movePlayer_playerTransform (dt : ℚ) (w : World) :
    (movePlayer dt w).playerTransform = w.playerTransform := rfl

lemma movePlayer_light (dt : ℚ) (w : World) : (movePlayer dt w).light = w.light := rfl

lemma movePlayer_plane (dt : ℚ) (w : World) : (movePlayer dt w).plane = w.plane := rfl

lemma movePlayer_direction (dt : ℚ) (w : World) :
    (movePlayer dt w).direction = w.direction := rfl

lemma mouseMotion_playerTransform (env : Env) (win : Window) (w : World) :
    (mouseMotion env win w).playerTransform = w.playerTransform := by
  cases hc : w.camera <;> simp [mouseMotion, hc]

lemma mouseMotion_light (env : Env) (win : Window) (w : World) :
    (mouseMotion env win w).light = w.light := by
  cases hc : w.camera <;> simp [mouseMotion, hc]

lemma mouseMotion_plane (env : Env) (win : Window) (w : World) :
    (mouseMotion env win w).plane = w.plane := by
  cases hc : w.camera <;> simp [mouseMotion, hc]

lemma mouseMotion_direction (env : Env) (win : Window) (w : World) :
    (mouseMotion env win w).direction = w.direction := by
  cases hc : w.camera <;> simp [mouseMotion, hc]

lemma mouseMotion_events (env : Env) (win : Window) (w : World) :
    (mouseMotion env win w).events = w.events := by
  cases hc : w.camera <;> simp [mouseMotion, hc]

lemma frameStep_playerRotation (env : Env) (fi : FrameInput) (w : World) :
    (frameStep env fi w).playerTransform.rotation
      = w.playerTransform.rotation := by
  unfold frameStep
  rw [mouseMotion_playerTransform, movePlayer_playerTransform,
    updateDirectionalInput_playerRotation]

lemma frameStep_light (env : Env) (fi : FrameInput) (w : World) :
    (frameStep env fi w).light = w.light := by
  unfold frameStep
  rw [mouseMotion_light, movePlayer_light, updateDirectionalInput_light]

lemma frameStep_plane (env : Env) (fi : FrameInput) (w : World) :
    (frameStep env fi w).plane = w.plane := by
  unfold frameStep
  rw [mouseMotion_plane, movePlayer_plane, updateDirectionalInput_plane]

lemma frameStep_direction (env : Env) (fi : FrameInput) (w : World) :
    (frameStep env fi w).direction = w.direction := by
  unfold frameStep
  rw [mouseMotion_direction, movePlayer_direction, updateDirectionalInput_direction]

lemma run_cons (env : Env) (fi : FrameInput) (fis : List FrameInput) (w : World) :
    run env (fi :: fis) w = run env fis (frameStep env fi w) := rfl

lemma run_playerRotation (env : Env) (fis : List FrameInput) (w : World) :
    (run env fis w).playerTransform.rotation = w.playerTransform.rotation := by
  induction fis generalizing w with
  | nil => rfl
  | cons fi rest ih => rw [run_cons, ih, frameStep_playerRotation]

lemma run_direction (env : Env) (fis : List FrameInput) (w : World) :
    (run env fis w).direction = w.direction := by
  induction fis generalizing w with
  | nil => rfl
  | cons fi rest ih => rw [run_cons, ih, frameStep_direction]

/-- C4: after processing a mouse-motion event, the camera rotation equals
exactly `RotateY(yaw) * RotateX(pitch)` of the stored scalars (the previous
rotation is overwritten, not composed into); hence any two steps reaching the
same stored `(yaw, pitch)` pair — whatever the previous transforms — end with
identical rotations. -/
theorem rotation_recomputed_from_yaw_pitch (env : Env) (win : Window)
    (st : InputState) (t : Transform) (ev : MouseMotionEv) :
    (mouseStep env win (st, t) ev).2.rotation
        = Quat.mul (Quat.fromAxisAngle env vY (mouseStep env win (st, t) ev).1.yaw)
                   (Quat.fromAxisAngle env vX (mouseStep env win (st, t) ev).1.pitch)
      ∧ (∀ (win' : Window) (st' : InputState) (t' : Transform) (ev' : MouseMotionEv),
          (mouseStep env win' (st', t') ev').1.yaw
              = (mouseStep env win (st, t) ev).1.yaw →
          (mouseStep env win' (st', t') ev').1.pitch
              = (mouseStep env win (st, t) ev).1.pitch →
          (mouseStep env win' (st', t') ev').2.rotation
              = (mouseStep env win (st, t) ev).2.rotation) := by
  refine ⟨mouseStep_rotation env win (st, t) ev, ?_⟩
  intro win' st' t' ev' hyaw hpitch
  rw [mouseStep_rotation, mouseStep_rotation, hyaw, hpitch]

/-- C4 witness: the same event from the same look state but two different
previous camera transforms yields the same rotation. -/
theorem rotation_recomputed_from_yaw_pitch_witness :
    (mouseStep ⟨fun _ => 0, fun _ => 1, 1⟩ ⟨720, 720, false, false⟩
        (InputState.default, { Transform.default with rotation := ⟨1, 0, 0, 0⟩ })
        ⟨1, 2⟩).2.rotation
      = (mouseStep ⟨fun _ => 0, fun _ => 1, 1⟩ ⟨720, 720, false, false⟩
          (InputState.default, Transform.default) ⟨1, 2⟩).2.rotation :=
  (rotation_recomputed_from_yaw_pitch ⟨fun _ => 0, fun _ => 1, 1⟩
      ⟨720, 720, false, false⟩ InputState.default Transform.default ⟨1, 2⟩).2
    ⟨720, 720, false, false⟩ InputState.default
    { Transform.default with rotation := ⟨1, 0, 0, 0⟩ } ⟨1, 2⟩ rfl rfl

/-- C5: no registered system writes the Player entity's rotation — over any run
from the spawned world it keeps its spawn-time identity value — so the Motion
Resolver's rotated forward step degenerates to the unrotated `Z * s` world
step. -/
theorem player_rotation_stays_identity (env : Env) (fis : List FrameInput)
    (camRot : Quat) :
    (run env fis (initWorld camRot)).playerTransform.rotation = qIdentity
      ∧ (∀ (a : ActionState) (w : World),
          w.playerTransform.rotation = qIdentity →
          (updateDirectionalInput a w).playerTransform.translation
            = w.playerTransform.translation + vZ.scale (specForwardScalar a)) := by
  constructor
  · rw [run_playerRotation]
    rfl
  · intro a w h
    rw [updateDirectionalInput_translation, h, Quat.mulVec3_identity]

/-- C5 witness: after a concrete two-frame run with a Forward release edge the
player rotation is still the identity, and the step from an identity-rotation
world is the plain `Z` step. -/
theorem player_rotation_stays_identity_witness :
    (run ⟨fun _ => 0, fun _ => 1, 1⟩
        [⟨⟨fun a => match a with | Action.forward => true | _ => false⟩,
          [⟨1, 2⟩], 1, ⟨720, 720, false, false⟩⟩]
        (initWorld ⟨1, 0, 0, 0⟩)).playerTransform.rotation = qIdentity
      ∧ (updateDirectionalInput
          ⟨fun a => match a with | Action.forward => true | _ => false⟩
          (initWorld ⟨1, 0, 0, 0⟩)).playerTransform.translation
        = (initWorld ⟨1, 0, 0, 0⟩).playerTransform.translation
          + vZ.scale (specForwardScalar
              ⟨fun a => match a with | Action.forward => true | _ => false⟩) :=
  ⟨(player_rotation_stays_identity ⟨fun _ => 0, fun _ => 1, 1⟩
      [⟨⟨fun a => match a with | Action.forward => true | _ => false⟩,
        [⟨1, 2⟩], 1, ⟨720, 720, false, false⟩⟩] ⟨1, 0, 0, 0⟩).1,
   (player_rotation_stays_identity ⟨fun _ => 0, fun _ => 1, 1⟩ [] ⟨1, 0, 0, 0⟩).2
      ⟨fun a => match a with | Action.forward => true | _ => false⟩
      (initWorld ⟨1, 0, 0, 0⟩) rfl⟩

/-- C6: the `Direction` resource is never written by any registered system — it
stays at its zero default over any run — and with zero direction the
continuous-motion system `move_player` changes no translation at all (it is the
identity on the world). -/
theorem direction_resource_never_written :
    (∀ (env : Env) (fi : FrameInput) (w : World),
        (frameStep env fi w).direction = w.direction)
      ∧ (∀ (env : Env) (fis : List FrameInput) (camRot : Quat),
          (run env fis (initWorld camRot)).direction = Vec3.zero)
      ∧ (∀ (dt : ℚ) (w : World), w.direction = Vec3.zero → movePlayer dt w = w) := by
  refine ⟨frameStep_direction, ?_, ?_⟩
  · intro env fis camRot
    rw [run_direction]
    rfl
  · intro dt w hdir
    simp only [movePlayer]
    have hf : ∀ t : Transform,
        ({ t with translation := t.translation + w.direction.scale dt } : Transform)
          = t := by
      intro t
      rw [hdir, Vec3.zero_scale, Vec3.add_zero]
    have hmap : Option.map
        (fun t : Transform =>
          { t with translation := t.translation + w.direction.scale dt })
        w.camera = w.camera := by
      rcases w.camera with _ | t
      · rfl
      · exact congrArg some (hf t)
    rw [hmap]

/-- C6 witness: on a concrete world with the default zero direction,
`move_player` is the identity. -/
theorem direction_resource_never_written_witness :
    movePlayer 1 (initWorld qIdentity) = initWorld qIdentity :=
  direction_resource_never_written.2.2 1 (initWorld qIdentity) rfl

/-- C7: on a frame with no camera entity, `mouse_motion` mutates nothing (given
the primary window exists it also raises no panic: it returns the world
unchanged). -/
theorem no_camera_no_mutation (env : Env) (win : Window) (w : World)
    (h : w.camera = none) :
    mouseMotion env win w = w
      ∧ mouseMotionRun env (some win) w = Except.ok w := by
  have h1 : mouseMotion env win w = w := by
    simp [mouseMotion, h]
  exact ⟨h1, by simp [mouseMotionRun, h1]⟩

/-- C7 witness: a concrete cameraless world passes through `mouse_motion`
unchanged. -/
theorem no_camera_no_mutation_witness :
    mouseMotion ⟨fun _ => 0, fun _ => 1, 1⟩ ⟨720, 720, false, false⟩
        { initWorld qIdentity with camera := none }
      = { initWorld qIdentity with camera := none } :=
  (no_camera_no_mutation ⟨fun _ => 0, fun _ => 1, 1⟩ ⟨720, 720, false, false⟩
    { initWorld qIdentity with camera := none } rfl).1

/-- C8: with the camera present, `mouse_motion` drains the pending mouse-motion
events exactly once — it folds the per-event step over precisely the
not-yet-read suffix and advances the reader cursor past every buffered event —
and running it again in the same frame consumes nothing and changes nothing. -/
theorem mouse_events_drained_once (env : Env) (win : Window) (w : World)
    (t : Transform) (h : w.camera = some t) :
    mouseMotion env win w
        = { w with
            camera := some ((w.events.drop w.inputState.cursor).foldl
                (mouseStep env win) (w.inputState, t)).2,
            inputState := { ((w.events.drop w.inputState.cursor).foldl
                (mouseStep env win) (w.inputState, t)).1 with
                cursor := w.events.length } }
      ∧ (mouseMotion env win w).inputState.cursor = w.events.length
      ∧ mouseMotion env win (mouseMotion env win w) = mouseMotion env win w := by
  have h1 : mouseMotion env win w
      = { w with
          camera := some ((w.events.drop w.inputState.cursor).foldl
              (mouseStep env win) (w.inputState, t)).2,
          inputState := { ((w.events.drop w.inputState.cursor).foldl
              (mouseStep env win) (w.inputState, t)).1 with
              cursor := w.events.length } } := by
    simp [mouseMotion, h]
  refine ⟨h1, by rw [h1], ?_⟩
  rw [h1]
  simp [mouseMotion, List.drop_length]

/-- C8 witness: a concrete one-event buffer — the cursor lands past the buffer
and an immediate second drain is a no-op. -/
theorem mouse_events_drained_once_witness :
    (mouseMotion ⟨fun _ => 0, fun _ => 1, 1⟩ ⟨720, 720, false, false⟩
        { initWorld qIdentity with events := [⟨1, 2⟩] }).inputState.cursor
        = ({ initWorld qIdentity with events := [⟨1, 2⟩] } : World).events.length
      ∧ mouseMotion ⟨fun _ => 0, fun _ => 1, 1⟩ ⟨720, 720, false, false⟩
          (mouseMotion ⟨fun _ => 0, fun _ => 1, 1⟩ ⟨720, 720, false, false⟩
            { initWorld qIdentity with events := [⟨1, 2⟩] })
        = mouseMotion ⟨fun _ => 0, fun _ => 1, 1⟩ ⟨720, 720, false, false⟩
            { initWorld qIdentity with events := [⟨1, 2⟩] } :=
  ⟨(mouse_events_drained_once ⟨fun _ => 0, fun _ => 1, 1⟩ ⟨720, 720, false, false⟩
      { initWorld qIdentity with events := [⟨1, 2⟩] }
      ⟨⟨0, 1, 5⟩, qIdentity, ⟨1, 1, 1⟩⟩ rfl).2.1,
   (mouse_events_drained_once ⟨fun _ => 0, fun _ => 1, 1⟩ ⟨720, 720, false, false⟩
      { initWorld qIdentity with events := [⟨1, 2⟩] }
      ⟨⟨0, 1, 5⟩, qIdentity, ⟨1, 1, 1⟩⟩ rfl).2.2⟩

/-- C9: a missing primary window is an unrecoverable fault — the startup
`cursor_grab_system` aborts on its `unwrap`, and so does the per-frame
`mouse_motion` path rather than skipping the frame. -/
theorem missing_window_aborts :
    cursorGrabSystem none = Except.error "no primary window"
      ∧ ∀ (env : Env) (w : World),
          mouseMotionRun env none w = Except.error "no primary window" :=
  ⟨rfl, fun _ _ => rfl⟩

/-- C10: per frame the registered systems leave the light's and the plane's
transforms (and the `Direction` resource) untouched; only the Player and
camera transforms are written — and there is a frame on which both of those do
change. -/
theorem frame_writes_only_player_and_camera :
    (∀ (env : Env) (fi : FrameInput) (w : World),
        (frameStep env fi w).light = w.light
          ∧ (frameStep env fi w).plane = w.plane
          ∧ (frameStep env fi w).direction = w.direction)
      ∧ (∃ (env : Env) (fi : FrameInput) (w : World),
          (frameStep env fi w).camera ≠ w.camera
            ∧ (frameStep env fi w).playerTransform ≠ w.playerTransform) := by
  constructor
  · intro env fi w
    exact ⟨frameStep_light env fi w, frameStep_plane env fi w,
      frameStep_direction env fi w⟩
  · refine ⟨⟨fun _ => 0, fun _ => 1, 1⟩,
      ⟨⟨fun a => match a with | Action.forward => true | _ => false⟩,
        [⟨1, 2⟩], 1, ⟨720, 720, false, false⟩⟩,
      initWorld ⟨1, 0, 0, 0⟩, ?_, ?_⟩ <;>
    simp [frameStep, updateDirectionalInput, updateDirectionalInputT, movePlayer,
      mouseMotion, mouseStep, lookUpdate, toRadians, clampQ, initWorld,
      Transform.default, InputState.default, qIdentity, vX, vY, vZ, boolToQ,
      Quat.mul, Quat.mulVec3, Quat.fromAxisAngle, Vec3.scale, Vec3.dot,
      Vec3.cross, Vec3.zero, Vec3.add_def, Vec3.add]

end Aegir
